import Mathlib

/-!
Shallow embedding of `src/backend/database.py`: the `InMemoryCollection`
class (an in-process imitation of a MongoDB collection interface) and the
`init_database` seeding routine, together with proofs about the claims of
the specification.

Modelling conventions:
* Python values occurring in this module (strings, ints, bools, None,
  lists, dicts) are modelled by the inductive type `Value`.
* A Python dict with string keys is modelled as an insertion-ordered
  association list `List (String × Value)`; dict assignment replaces the
  value at the first occurrence of the key in place, preserving position,
  and appends at the end for a fresh key (CPython dict semantics).
* The collection's backing `data_store` is a dict from identity key
  (string) to record: `Store := List (String × Record)`.
* A Python operation that can raise an exception is modelled as returning
  `Option`/`none` for the error case.  Corners of Python semantics that no
  stored data or claim exercises (lexicographic comparison of two lists,
  `sorted` over non-string homogeneous sets) are modelled as errors, and
  are noted at the definition site.
-/

set_option autoImplicit false

namespace MemDB

/-- A Python value as used by `database.py`: None, bool, int, str,
list, or string-keyed dict. -/
inductive Value where
  | null : Value
  | bool : Bool → Value
  | int : Int → Value
  | str : String → Value
  | list : List Value → Value
  | obj : List (String × Value) → Value

/-- A record / document: a Python dict from field name to value,
in insertion order. -/
abbrev Record := List (String × Value)

/-- A query is likewise a dict from field path to condition value. -/
abbrev Query := List (String × Value)

/-- The backing store: dict from identity key to record. -/
abbrev Store := List (String × Record)

/-- Dict lookup: value at the first occurrence of the key. -/
def assocGet {α : Type} : List (String × α) → String → Option α
  | [], _ => none
  | (k', v) :: rest, k => if k' = k then some v else assocGet rest k

/-- Python `k in d` for a string-keyed dict. -/
def hasKey {α : Type} (m : List (String × α)) (k : String) : Bool :=
  (assocGet m k).isSome

/-- Python dict assignment `d[k] = v`: replace the value at the first
occurrence of `k` in place, else append the new entry at the end. -/
def assocSet {α : Type} : List (String × α) → String → α → List (String × α)
  | [], k, v => [(k, v)]
  | (k', v') :: rest, k, v =>
    if k' = k then (k, v) :: rest else (k', v') :: assocSet rest k v

mutual

/-- Structural equality of values; stands in for Python object identity
(`is`) in the identity-or-equality contract of `in` and `list.remove`. -/
def valueBeq : Value → Value → Bool
  | .null, .null => true
  | .bool a, .bool b => a == b
  | .int a, .int b => a == b
  | .str a, .str b => a == b
  | .list a, .list b => valueBeqList a b
  | .obj a, .obj b => valueBeqObj a b
  | _, _ => false

def valueBeqList : List Value → List Value → Bool
  | [], [] => true
  | a :: as, b :: bs => valueBeq a b && valueBeqList as bs
  | _, _ => false

def valueBeqObj : List (String × Value) → List (String × Value) → Bool
  | [], [] => true
  | (k, v) :: r, (k', v') :: r' => k == k' && valueBeq v v' && valueBeqObj r r'
  | _, _ => false

end

mutual

/-- Python `==` between two values: numeric cross-equality between bool
and int (`True == 1`), elementwise for lists, key-set plus valuewise for
dicts (order-insensitive), and `False` across other type mismatches. -/
def pyEq : Value → Value → Bool
  | .null, .null => true
  | .bool a, .bool b => a == b
  | .int a, .int b => a == b
  | .int a, .bool b => a == (if b then (1 : Int) else 0)
  | .bool a, .int b => (if a then (1 : Int) else 0) == b
  | .str a, .str b => a == b
  | .list a, .list b => pyEqList a b
  | .obj a, .obj b =>
    a.all (fun e => hasKey b e.1) && b.all (fun e => hasKey a e.1) && pyEqObjSub a b
  | _, _ => false

def pyEqList : List Value → List Value → Bool
  | [], [] => true
  | a :: as, b :: bs => pyEq a b && pyEqList as bs
  | _, _ => false

/-- Every entry of the first dict equals the entry of the second dict at
the same key (the key-set agreement is checked separately in `pyEq`). -/
def pyEqObjSub : List (String × Value) → List (String × Value) → Bool
  | [], _ => true
  | (k, v) :: rest, b =>
    (match assocGet b k with
     | some w => pyEq v w
     | none => false) && pyEqObjSub rest b

end

/-- Python `v != b` where `b` is a Python bool (used by the `$exists`
branch): bools compare by value, ints cross-compare numerically, every
other value is unequal to a bool. -/
def pyEqAsBool (v : Value) (b : Bool) : Bool :=
  match v with
  | .bool b' => b' == b
  | .int n => n == (if b then (1 : Int) else 0)
  | _ => false

/-- Lexicographic code-point comparison of character lists: Python's
string `<`. -/
def charsLt : List Char → List Char → Bool
  | _, [] => false
  | [], _ :: _ => true
  | a :: as, b :: bs =>
    a.toNat < b.toNat || (a.toNat == b.toNat && charsLt as bs)

/-- Python `a < b` for strings. -/
def strLt (a b : String) : Bool :=
  charsLt a.data b.data

/-- Python `<` between two values, `none` where Python raises `TypeError`.
Strings compare lexicographically by code point, ints numerically, bools
as 0/1.  Lexicographic list/list comparison (which Python supports) is
not modelled and treated as an error; no stored data compares lists. -/
def pyLt : Value → Value → Option Bool
  | .str a, .str b => some (strLt a b)
  | .int a, .int b => some (decide (a < b))
  | .int a, .bool b => some (decide (a < (if b then (1 : Int) else 0)))
  | .bool a, .int b => some (decide ((if a then (1 : Int) else 0) < b))
  | .bool a, .bool b => some (decide ((if a then (1 : Int) else 0) < (if b then (1 : Int) else 0)))
  | _, _ => none

/-- Python `a > b`, via `b < a` (true for str/int, the only ordered
values modelled). -/
def pyGt (a b : Value) : Option Bool := pyLt b a

/-- Whether the character list `sub` occurs contiguously in `l`
(Python substring containment). -/
def charsContain (l sub : List Char) : Bool :=
  sub.isPrefixOf l ||
    (match l with
     | [] => false
     | _ :: t => charsContain t sub)

/-- Python `sub in s` for strings: substring containment. -/
def strContains (s sub : String) : Bool :=
  charsContain s.data sub.data

/-- Python membership `x in c`: for a list, identity-or-equality against
each element; for a string, substring test (only a string can be sought,
else `TypeError`); for a dict, key membership (a non-string never equals
a string key, a list key raises); other containers raise `TypeError`. -/
def valueIn (x : Value) : Value → Option Bool
  | .list l => some (l.any (fun e => valueBeq x e || pyEq x e))
  | .str s =>
    match x with
    | .str xs => some (strContains s xs)
    | _ => none
  | .obj o =>
    match x with
    | .str k => some (hasKey o k)
    | .list _ => none
    | _ => some false
  | _ => none

/-- Models `doc.get("schedule_details", {}).get(sub, default)`: the nested
lookup that the recognized dotted paths perform.  `none` models the
`AttributeError` Python raises when `schedule_details` is present but
not a dict. -/
def getSchedSub (doc : Record) (sub : String) (dflt : Value) : Option Value :=
  match (assocGet doc "schedule_details").getD (.obj []) with
  | .obj sd => some ((assocGet sd sub).getD dflt)
  | _ => none

/-- Python `"$op" in condition` for a condition value: key membership for
a dict, substring test for a string, identity-or-equality membership for
a list, `TypeError` otherwise. -/
def condHas (c : Value) (op : String) : Option Bool := valueIn (.str op) c

/-- Python `condition["$op"]` subscripting: only a dict can be indexed by
a string (the op key is known present when this is evaluated). -/
def getItem (c : Value) (op : String) : Option Value :=
  match c with
  | .obj o => assocGet o op
  | _ => none

/-- Models `any(day in doc_days for day in days)`: short-circuiting, so an
element raising after a hit is never evaluated. -/
def anyMemOf (days : List Value) (container : Value) : Option Bool :=
  match days with
  | [] => some false
  | d :: ds =>
    match valueIn d container with
    | none => none
    | some true => some true
    | some false => anyMemOf ds container

/-- The elements Python iterates over in `for day in cond`: a list's
elements, a string's characters, a dict's keys; ints and None raise. -/
def iterElems : Value → Option (List Value)
  | .list l => some l
  | .str s => some (s.data.map (fun c => Value.str (String.mk [c])))
  | .obj o => some (o.map (fun e => Value.str e.1))
  | _ => none

/-- One clause of `_matches_query` (one loop iteration): `some false`
models the early `return False`, `some true` means the loop continues,
`none` models a raised exception. -/
def matchClause (doc : Record) (key : String) (condition : Value) : Option Bool :=
  if key = "schedule_details.days" then
    match condHas condition "$in" with
    | none => none
    | some false => some true
    | some true =>
      match getItem condition "$in" with
      | none => none
      | some condIn =>
        match getSchedSub doc "days" (.list []) with
        | none => none
        | some docDays =>
          match iterElems condIn with
          | none => none
          | some ds =>
            match anyMemOf ds docDays with
            | none => none
            | some b => some b
  else if key = "schedule_details.start_time" then
    match condHas condition "$gte" with
    | none => none
    | some false => some true
    | some true =>
      match getItem condition "$gte" with
      | none => none
      | some bound =>
        match getSchedSub doc "start_time" (.str "") with
        | none => none
        | some docTime =>
          match pyLt docTime bound with
          | none => none
          | some lt => some (!lt)
  else if key = "schedule_details.end_time" then
    match condHas condition "$lte" with
    | none => none
    | some false => some true
    | some true =>
      match getItem condition "$lte" with
      | none => none
      | some bound =>
        match getSchedSub doc "end_time" (.str "") with
        | none => none
        | some docTime =>
          match pyGt docTime bound with
          | none => none
          | some gt => some (!gt)
  else if key = "difficulty_level" then
    match condition with
    | .obj o =>
      if hasKey o "$exists" then
        match assocGet o "$exists" with
        | none => none
        | some want =>
          let fieldExists :=
            match assocGet doc "difficulty_level" with
            | some .null => false
            | some _ => true
            | none => false
          some (pyEqAsBool want fieldExists)
      else
        some (pyEq ((assocGet doc "difficulty_level").getD .null) condition)
    | _ => some (pyEq ((assocGet doc "difficulty_level").getD .null) condition)
  else
    some true

/-- Models `_matches_query(doc, query)`: every clause in order, early `return
False` on a failing recognized clause, unrecognized field paths silently
pass. -/
def _matches_query (doc : Record) : Query → Option Bool
  | [] => some true
  | (k, c) :: rest =>
    match matchClause doc k c with
    | none => none
    | some false => some false
    | some true => _matches_query doc rest

/-- Models `{"_id": key, **value}`: a fresh dict holding `_id` first, then the
record's fields merged in by dict assignment. -/
def withId (key : Value) (rec : Record) : Record :=
  rec.foldl (fun acc e => assocSet acc e.1 e.2) [("_id", key)]

/-- The filtering loop of `find` over the store entries. -/
def findFilter (q : Query) : Store → Option (List Record)
  | [] => some []
  | (k, v) :: rest =>
    match _matches_query (withId (.str k) v) q with
    | none => none
    | some true =>
      match findFilter q rest with
      | none => none
      | some l => some (withId (.str k) v :: l)
    | some false => findFilter q rest

/-- Models `find(query=None)`: all records (identity key attached as `_id`) for
an absent or empty query, else the matching ones, in store order. -/
def find (s : Store) (query : Option Query) : Option (List Record) :=
  match query with
  | none => some (s.map (fun e => withId (.str e.1) e.2))
  | some [] => some (s.map (fun e => withId (.str e.1) e.2))
  | some q => findFilter q s

/-- Store lookup by a query-supplied key value (`key in self.data_store`
and the subsequent subscript): a non-string value never equals a string
dict key, so only string keys can be found. -/
def storeGetV (s : Store) : Value → Option Record
  | .str k => assocGet s k
  | _ => none

/-- Models `find_one(query)`: identity lookup when the query carries `_id`,
`None` otherwise. -/
def find_one (s : Store) (query : Query) : Option Record :=
  match assocGet query "_id" with
  | some key =>
    match storeGetV s key with
    | some rec => some (withId key rec)
    | none => none
  | none => none

/-- Models `insert_one(document)`: `document["_id"]` becomes the store key, the
remaining fields the stored record; replace-or-insert.  `none` models the
`KeyError` on a document without `_id`; a non-string identity value is
outside the string-keyed store model and also maps to `none`. -/
def insert_one (s : Store) (document : Record) : Option Store :=
  match assocGet document "_id" with
  | some (.str docId) =>
    some (assocSet s docId (document.filter (fun e => e.1 ≠ "_id")))
  | _ => none

/-- Models `if field not in record: record[field] = []` — the field-creating
first line of the `$push` loop body. -/
def ensureField (r : Record) (f : String) : Record :=
  if hasKey r f then r else assocSet r f (.list [])

/-- The `$push` loop: create the field as `[]` if absent, then append;
appending to a present non-list field raises (`AttributeError`). -/
def applyPush (r : Record) : List (String × Value) → Option Record
  | [] => some r
  | (f, v) :: rest =>
    match assocGet (ensureField r f) f with
    | some (.list l) => applyPush (assocSet (ensureField r f) f (.list (l ++ [v]))) rest
    | _ => none

/-- The `$pull` loop: skip an absent field; for a present list field
remove the first identity-or-equal occurrence if the value is present,
else no-op; a membership hit in a present non-list field raises
(`.remove` on str/dict), a non-container field raises on `in`. -/
def removeFirstPy (v : Value) : List Value → List Value
  | [] => []
  | x :: xs => if valueBeq x v || pyEq x v then xs else x :: removeFirstPy v xs

def applyPull (rec : Record) : List (String × Value) → Option Record
  | [] => some rec
  | (f, v) :: rest =>
    if hasKey rec f then
      match assocGet rec f with
      | some fv =>
        match valueIn v fv with
        | none => none
        | some false => applyPull rec rest
        | some true =>
          match fv with
          | .list l => applyPull (assocSet rec f (.list (removeFirstPy v l))) rest
          | _ => none
      | none => none
    else
      applyPull rec rest

/-- The `if "$push" in update:` block of `update_one`, acting on the
matched record; `none` when the `$push` payload is not a dict
(`.items()` raises) or a push target raises. -/
def pushPart (update : Record) (r : Record) : Option Record :=
  if hasKey update "$push" then
    match assocGet update "$push" with
    | some (.obj pushes) => applyPush r pushes
    | _ => none
  else some r

/-- The `if "$pull" in update:` block of `update_one`. -/
def pullPart (update : Record) (r : Record) : Option Record :=
  if hasKey update "$pull" then
    match assocGet update "$pull" with
    | some (.obj pulls) => applyPull r pulls
    | _ => none
  else some r

/-- Models `update_one(query, update)`: identity-keyed update applying `$push`
then `$pull`; returns the new store and the result's `modified_count`.
`none` models a raised exception (non-dict `$push`/`$pull` payloads,
non-sequence targets). -/
def update_one (s : Store) (query : Query) (update : Record) :
    Option (Store × Nat) :=
  if hasKey query "_id" then
    match assocGet query "_id" with
    | none => none
    | some key =>
      match storeGetV s key with
      | none => some (s, 0)
      | some r =>
        match pushPart update r with
        | none => none
        | some r1 =>
          match pullPart update r1 with
          | none => none
          | some r2 =>
            match key with
            | .str k => some (assocSet s k r2, 1)
            | _ => some (s, 1)
  else
    some (s, 0)

/-- Models `count_documents(query)`: the total record count, the query argument
unused. -/
def count_documents (s : Store) (_query : Query) : Nat :=
  s.length

/-- The day values one record contributes to `all_days`:
`if "schedule_details" in activity and "days" in activity["schedule_details"]:
all_days.update(activity["schedule_details"]["days"])`.  `none` models a
raised exception (non-dict `schedule_details` whose `in`-test succeeds,
or a non-iterable `days`). -/
def dayValuesOf (rec : Record) : Option (List Value) :=
  match assocGet rec "schedule_details" with
  | none => some []
  | some (.obj sd) =>
    match assocGet sd "days" with
    | none => some []
    | some d => iterElems d
  | some (.str s) => if strContains s "days" then none else some []
  | some (.list l) =>
    if l.any (fun e => valueBeq (.str "days") e || pyEq (.str "days") e) then none
    else some []
  | some _ => none

/-- The `all_days` accumulation over every record, in store order. -/
def collectAllDays : Store → Option (List Value)
  | [] => some []
  | e :: rest =>
    match dayValuesOf e.2, collectAllDays rest with
    | some ds, some acc => some (ds ++ acc)
    | _, _ => none

/-- All collected day values as strings; `sorted` over a set holding a
non-string member is not modelled (Python raises on a str/int mix and
no stored data sorts non-strings). -/
def valuesAsStrings : List Value → Option (List String)
  | [] => some []
  | .str s :: rest => (valuesAsStrings rest).map (fun l => s :: l)
  | _ => none

/-- Models `sorted(all_days)` over the set of collected days: the
ascending-sorted list of distinct values (a Python set deduplicates,
`sorted` orders). -/
def sortedDays (l : List String) : List String :=
  l.toFinset.sort (· ≤ ·)

/-- Models `aggregate(pipeline)`: the single recognized shape is a leading
`$unwind` of `"$schedule_details.days"`, producing the sorted distinct
day values wrapped as `{"_id": day}`; every other pipeline yields `[]`. -/
def aggregate (s : Store) (pipeline : List Record) : Option (List Record) :=
  match pipeline with
  | [] => some []
  | stage :: _ =>
    if pyEq ((assocGet stage "$unwind").getD .null) (.str "$schedule_details.days") then
      match collectAllDays s with
      | none => none
      | some vals =>
        match valuesAsStrings vals with
        | none => none
        | some strs =>
          some ((sortedDays strs).map (fun day => [("_id", Value.str day)]))
    else
      some []

/-- The `initial_activities` seed dict, as (name, details) items in
source order. -/
def initial_activities : List (String × Record) :=
  [ ("Chess Club",
     [ ("description", .str "Learn strategies and compete in chess tournaments"),
       ("schedule", .str "Mondays and Fridays, 3:15 PM - 4:45 PM"),
       ("schedule_details", .obj
         [ ("days", .list [.str "Monday", .str "Friday"]),
           ("start_time", .str "15:15"),
           ("end_time", .str "16:45") ]),
       ("max_participants", .int 12),
       ("participants", .list [.str "michael@mergington.edu", .str "daniel@mergington.edu"]),
       ("difficulty_level", .str "Beginner") ]),
    ("Programming Class",
     [ ("description", .str "Learn programming fundamentals and build software projects"),
       ("schedule", .str "Tuesdays and Thursdays, 7:00 AM - 8:00 AM"),
       ("schedule_details", .obj
         [ ("days", .list [.str "Tuesday", .str "Thursday"]),
           ("start_time", .str "07:00"),
           ("end_time", .str "08:00") ]),
       ("max_participants", .int 20),
       ("participants", .list [.str "emma@mergington.edu", .str "sophia@mergington.edu"]),
       ("difficulty_level", .str "Intermediate") ]),
    ("Morning Fitness",
     [ ("description", .str "Early morning physical training and exercises"),
       ("schedule", .str "Mondays, Wednesdays, Fridays, 6:30 AM - 7:45 AM"),
       ("schedule_details", .obj
         [ ("days", .list [.str "Monday", .str "Wednesday", .str "Friday"]),
           ("start_time", .str "06:30"),
           ("end_time", .str "07:45") ]),
       ("max_participants", .int 30),
       ("participants", .list [.str "john@mergington.edu", .str "olivia@mergington.edu"]) ]),
    ("Soccer Team",
     [ ("description", .str "Join the school soccer team and compete in matches"),
       ("schedule", .str "Tuesdays and Thursdays, 3:30 PM - 5:30 PM"),
       ("schedule_details", .obj
         [ ("days", .list [.str "Tuesday", .str "Thursday"]),
           ("start_time", .str "15:30"),
           ("end_time", .str "17:30") ]),
       ("max_participants", .int 22),
       ("participants", .list [.str "liam@mergington.edu", .str "noah@mergington.edu"]) ]),
    ("Basketball Team",
     [ ("description", .str "Practice and compete in basketball tournaments"),
       ("schedule", .str "Wednesdays and Fridays, 3:15 PM - 5:00 PM"),
       ("schedule_details", .obj
         [ ("days", .list [.str "Wednesday", .str "Friday"]),
           ("start_time", .str "15:15"),
           ("end_time", .str "17:00") ]),
       ("max_participants", .int 15),
       ("participants", .list [.str "ava@mergington.edu", .str "mia@mergington.edu"]) ]),
    ("Art Club",
     [ ("description", .str "Explore various art techniques and create masterpieces"),
       ("schedule", .str "Thursdays, 3:15 PM - 5:00 PM"),
       ("schedule_details", .obj
         [ ("days", .list [.str "Thursday"]),
           ("start_time", .str "15:15"),
           ("end_time", .str "17:00") ]),
       ("max_participants", .int 15),
       ("participants", .list [.str "amelia@mergington.edu", .str "harper@mergington.edu"]),
       ("difficulty_level", .str "Beginner") ]),
    ("Drama Club",
     [ ("description", .str "Act, direct, and produce plays and performances"),
       ("schedule", .str "Mondays and Wednesdays, 3:30 PM - 5:30 PM"),
       ("schedule_details", .obj
         [ ("days", .list [.str "Monday", .str "Wednesday"]),
           ("start_time", .str "15:30"),
           ("end_time", .str "17:30") ]),
       ("max_participants", .int 20),
       ("participants", .list [.str "ella@mergington.edu", .str "scarlett@mergington.edu"]) ]),
    ("Math Club",
     [ ("description", .str "Solve challenging problems and prepare for math competitions"),
       ("schedule", .str "Tuesdays, 7:15 AM - 8:00 AM"),
       ("schedule_details", .obj
         [ ("days", .list [.str "Tuesday"]),
           ("start_time", .str "07:15"),
           ("end_time", .str "08:00") ]),
       ("max_participants", .int 10),
       ("participants", .list [.str "james@mergington.edu", .str "benjamin@mergington.edu"]),
       ("difficulty_level", .str "Advanced") ]),
    ("Debate Team",
     [ ("description", .str "Develop public speaking and argumentation skills"),
       ("schedule", .str "Fridays, 3:30 PM - 5:30 PM"),
       ("schedule_details", .obj
         [ ("days", .list [.str "Friday"]),
           ("start_time", .str "15:30"),
           ("end_time", .str "17:30") ]),
       ("max_participants", .int 12),
       ("participants", .list [.str "charlotte@mergington.edu", .str "amelia@mergington.edu"]),
       ("difficulty_level", .str "Intermediate") ]),
    ("Weekend Robotics Workshop",
     [ ("description", .str "Build and program robots in our state-of-the-art workshop"),
       ("schedule", .str "Saturdays, 10:00 AM - 2:00 PM"),
       ("schedule_details", .obj
         [ ("days", .list [.str "Saturday"]),
           ("start_time", .str "10:00"),
           ("end_time", .str "14:00") ]),
       ("max_participants", .int 15),
       ("participants", .list [.str "ethan@mergington.edu", .str "oliver@mergington.edu"]),
       ("difficulty_level", .str "Advanced") ]),
    ("Science Olympiad",
     [ ("description", .str "Weekend science competition preparation for regional and state events"),
       ("schedule", .str "Saturdays, 1:00 PM - 4:00 PM"),
       ("schedule_details", .obj
         [ ("days", .list [.str "Saturday"]),
           ("start_time", .str "13:00"),
           ("end_time", .str "16:00") ]),
       ("max_participants", .int 18),
       ("participants", .list [.str "isabella@mergington.edu", .str "lucas@mergington.edu"]) ]),
    ("Sunday Chess Tournament",
     [ ("description", .str "Weekly tournament for serious chess players with rankings"),
       ("schedule", .str "Sundays, 2:00 PM - 5:00 PM"),
       ("schedule_details", .obj
         [ ("days", .list [.str "Sunday"]),
           ("start_time", .str "14:00"),
           ("end_time", .str "17:00") ]),
       ("max_participants", .int 16),
       ("participants", .list [.str "william@mergington.edu", .str "jacob@mergington.edu"]),
       ("difficulty_level", .str "Advanced") ]),
    ("Manga Maniacs",
     [ ("description", .str "Dive into epic adventures, discover incredible powers, and connect with unforgettable heroes! Join fellow manga enthusiasts as we explore everything from shonen battles to slice-of-life stories. Whether you\x27re rooting for Naruto, One Piece, or love discovering hidden gems, this is your otaku home base!"),
       ("schedule", .str "Tuesdays, 7:00 PM - 8:00 PM"),
       ("schedule_details", .obj
         [ ("days", .list [.str "Tuesday"]),
           ("start_time", .str "19:00"),
           ("end_time", .str "20:00") ]),
       ("max_participants", .int 15),
       ("participants", .list []) ]) ]

/-- The `initial_teachers` seed list; the argon2 `hash_password`
collaborator is an opaque external function, passed in as `hash`. -/
def initial_teachers (hash : String → String) : List Record :=
  [ [ ("username", .str "mrodriguez"),
      ("display_name", .str "Ms. Rodriguez"),
      ("password", .str (hash "art123")),
      ("role", .str "teacher") ],
    [ ("username", .str "mchen"),
      ("display_name", .str "Mr. Chen"),
      ("password", .str (hash "chess456")),
      ("role", .str "teacher") ],
    [ ("username", .str "principal"),
      ("display_name", .str "Principal Martinez"),
      ("password", .str (hash "admin789")),
      ("role", .str "admin") ] ]

/-- The process-wide pair of collections backing
`activities_collection` and `teachers_collection`. -/
structure DBState where
  activities : Store
  teachers : Store

/-- One seeding pass over one store: `insert_one({"_id": name, **details})`
per seed item.  The seed documents carry `_id` (a string) by construction,
so the insert cannot fail; the fallback branch is unreachable. -/
def seedFold (seeds : List (String × Record)) (s : Store) : Store :=
  seeds.foldl
    (fun acc e =>
      match insert_one acc (withId (.str e.1) e.2) with
      | some s' => s'
      | none => acc)
    s

/-- Models `init_database()`: seed each collection, gated on
`count_documents({}) == 0`.  The teacher key is `teacher["username"]`
(a string in every seed record). -/
def init_database (hash : String → String) (st : DBState) : DBState :=
  let acts :=
    if count_documents st.activities [] == 0 then
      seedFold initial_activities st.activities
    else st.activities
  let teach :=
    if count_documents st.teachers [] == 0 then
      seedFold
        ((initial_teachers hash).filterMap
          (fun t =>
            match assocGet t "username" with
            | some (Value.str u) => some (u, t)
            | _ => none))
        st.teachers
    else st.teachers
  { activities := acts, teachers := teach }

/-- The queried dotted field path `schedule_details.<sub>` is absent from
a document: either there is no `schedule_details` field, or it is a dict
without the `<sub>` key. -/
def schedPathAbsent (doc : Record) (sub : String) : Bool :=
  match assocGet doc "schedule_details" with
  | none => true
  | some (.obj sd) => !(hasKey sd sub)
  | some _ => false

/-- The field names an update's `$push` dict targets (empty when the
update carries no well-formed `$push`). -/
def pushPairs (update : Record) : List (String × Value) :=
  match assocGet update "$push" with
  | some (.obj o) => o
  | _ => []

/-- The field names an update's `$pull` dict targets. -/
def pullPairs (update : Record) : List (String × Value) :=
  match assocGet update "$pull" with
  | some (.obj o) => o
  | _ => []

/-- One record's `schedule_details`, when present, is a dict, and its
`days`, when present, is a list of strings — the record shape of the
spec's data model. -/
def recDaysWF (r : Record) : Bool :=
  match assocGet r "schedule_details" with
  | none => true
  | some (.obj sd) =>
    match assocGet sd "days" with
    | none => true
    | some (.list l) => l.all (fun v => match v with | .str _ => true | _ => false)
    | some _ => false
  | some _ => false

/-- Every record of the store is shaped per the spec's data model
(`recDaysWF`). -/
def daysWF (s : Store) : Bool :=
  s.all fun e => recDaysWF e.2

/-- The day strings of one record's `schedule_details.days` sequence. -/
def recDayStrings (rec : Record) : List String :=
  match assocGet rec "schedule_details" with
  | some (.obj sd) =>
    match assocGet sd "days" with
    | some (.list l) => l.filterMap (fun v => match v with | .str d => some d | _ => none)
    | _ => []
  | _ => []

/-- All day strings occurring across the store, in store order. -/
def allDayStrings (s : Store) : List String :=
  s.foldr (fun e acc => recDayStrings e.2 ++ acc) []

/-- A store holding a single record with no fields at all — in
particular, every recognized dotted field path is absent from it. -/
def absentStore : Store := [("A", [])]

/-- A query consisting of exactly one recognized operator clause:
`{"schedule_details.end_time": {"$lte": "17:00"}}`. -/
def lteQuery : Query := [("schedule_details.end_time", .obj [("$lte", .str "17:00")])]

/-- The two-record store of the spec's aggregation scenario: day
sequences `["Monday", "Friday"]` and `["Friday"]`. -/
def scenarioStore : Store :=
  [ ("a", [("schedule_details", .obj [("days", .list [.str "Monday", .str "Friday"])])]),
    ("b", [("schedule_details", .obj [("days", .list [.str "Friday"])])]) ]

/-- The recognized aggregation pipeline
`[{"$unwind": "$schedule_details.days"}]`. -/
def unwindPipeline : List Record := [[("$unwind", .str "$schedule_details.days")]]

/-- A small store for concrete update/find witnesses: one record with a
`participants` list and a numeric capacity. -/
def chessStore : Store :=
  [("Chess Club", [("participants", .list [.str "a@x.edu"]), ("max_participants", .int 2)])]

/-! ### Support lemmas -/

mutual

theorem valueBeq_refl : (a : Value) → valueBeq a a = true
  | .null => rfl
  | .bool b => by simp [valueBeq]
  | .int n => by simp [valueBeq]
  | .str s => by simp [valueBeq]
  | .list l => by simp only [valueBeq]; exact valueBeqList_refl l
  | .obj o => by simp only [valueBeq]; exact valueBeqObj_refl o

theorem valueBeqList_refl : (l : List Value) → valueBeqList l l = true
  | [] => rfl
  | a :: as => by
    simp only [valueBeqList, Bool.and_eq_true]
    exact ⟨valueBeq_refl a, valueBeqList_refl as⟩

theorem valueBeqObj_refl : (o : List (String × Value)) → valueBeqObj o o = true
  | [] => rfl
  | (k, v) :: r => by
    simp only [valueBeqObj, Bool.and_eq_true, beq_self_eq_true]
    exact ⟨⟨trivial, valueBeq_refl v⟩, valueBeqObj_refl r⟩

end

section AssocLemmas

variable {α : Type}

theorem assocGet_assocSet_self (m : List (String × α)) (k : String) (v : α) :
    assocGet (assocSet m k v) k = some v := by
  induction m with
  | nil => simp [assocSet, assocGet]
  | cons e rest ih =>
    by_cases h : e.1 = k
    · simp [assocSet, h, assocGet]
    · simp [assocSet, h, assocGet, ih]

theorem assocGet_assocSet_ne (m : List (String × α)) (k k' : String) (v : α)
    (h : k' ≠ k) : assocGet (assocSet m k v) k' = assocGet m k' := by
  have hk : ¬ (k = k') := fun hh => h hh.symm
  induction m with
  | nil =>
    simp only [assocSet, assocGet]
    rw [if_neg hk]
  | cons e rest ih =>
    obtain ⟨ek, ev⟩ := e
    by_cases he : ek = k
    · subst he
      simp only [assocSet, if_pos rfl, assocGet]
      rw [if_neg hk, if_neg hk]
    · simp only [assocSet, if_neg he, assocGet]
      by_cases he' : ek = k'
      · rw [if_pos he', if_pos he']
      · rw [if_neg he', if_neg he', ih]

theorem assocSet_eq_self (m : List (String × α)) (k : String) (v : α)
    (h : assocGet m k = some v) : assocSet m k v = m := by
  induction m with
  | nil => simp [assocGet] at h
  | cons e rest ih =>
    by_cases he : e.1 = k
    · simp only [assocGet, he, if_pos rfl] at h
      cases h
      cases e
      simp_all [assocSet]
    · simp only [assocGet, he, if_neg he] at h
      simp [assocSet, he, ih h]

theorem assocSet_ne_nil (m : List (String × α)) (k : String) (v : α) :
    assocSet m k v ≠ [] := by
  cases m with
  | nil => simp [assocSet]
  | cons e rest =>
    by_cases he : e.1 = k <;> simp [assocSet, he]

theorem hasKey_of_get {m : List (String × α)} {k : String} {v : α}
    (h : assocGet m k = some v) : hasKey m k = true := by
  simp [hasKey, h]

theorem hasKey_false_get {m : List (String × α)} {k : String}
    (h : hasKey m k = false) : assocGet m k = none := by
  cases hg : assocGet m k with
  | none => rfl
  | some v => rw [hasKey, hg] at h; simp at h

end AssocLemmas

theorem strLt_empty_left {b : String} (h : b ≠ "") : strLt "" b = true := by
  unfold strLt
  cases hb : b.data with
  | nil =>
    have : b = "" := by cases b; simp only at hb; rw [hb]
    exact absurd this h
  | cons c cs => rfl

theorem strLt_empty_right (b : String) : strLt b "" = false := by
  unfold strLt
  cases b.data with
  | nil => rfl
  | cons c cs => rfl

theorem findFilter_mem_matches {q : Query} {s : Store} {res : List Record}
    {doc : Record} (hf : findFilter q s = some res) (hd : doc ∈ res) :
    _matches_query doc q = some true := by
  induction s generalizing res with
  | nil =>
    simp only [findFilter, Option.some.injEq] at hf
    subst hf
    cases hd
  | cons e rest ih =>
    obtain ⟨k, v⟩ := e
    simp only [findFilter] at hf
    cases hm : _matches_query (withId (.str k) v) q with
    | none => rw [hm] at hf; cases hf
    | some b =>
      rw [hm] at hf
      cases b with
      | false => exact ih hf hd
      | true =>
        cases hrest : findFilter q rest with
        | none => rw [hrest] at hf; cases hf
        | some res' =>
          rw [hrest] at hf
          simp only [Option.some.injEq] at hf
          subst hf
          rcases List.mem_cons.mp hd with hdoc | hdoc
          · rw [hdoc]; exact hm
          · exact ih hrest hdoc

theorem getSchedSub_absent {doc : Record} {sub : String}
    (h : schedPathAbsent doc sub = true) (dflt : Value) :
    getSchedSub doc sub dflt = some dflt := by
  unfold schedPathAbsent at h
  unfold getSchedSub
  cases hg : assocGet doc "schedule_details" with
  | none => simp [hg, assocGet]
  | some v =>
    rw [hg] at h
    cases v with
    | obj sd =>
      simp only [Bool.not_eq_true'] at h
      simp [hg, hasKey_false_get h]
    | null => cases h
    | bool b => cases h
    | int n => cases h
    | str s => cases h
    | list l => cases h

theorem anyMemOf_list_nil : (ds : List Value) → anyMemOf ds (.list []) = some false
  | [] => rfl
  | d :: ds => by
    simp only [anyMemOf, valueIn, List.any_nil]
    exact anyMemOf_list_nil ds

theorem matchClause_days_in_absent {doc : Record} {c ins : Value}
    (hi : getItem c "$in" = some ins) (ha : schedPathAbsent doc "days" = true) :
    matchClause doc "schedule_details.days" c ≠ some true := by
  obtain ⟨o, rfl⟩ : ∃ o, c = Value.obj o := by
    cases c <;> first | exact ⟨_, rfl⟩ | cases hi
  simp only [getItem] at hi
  simp only [matchClause, if_pos rfl, condHas, valueIn, hasKey, hi, Option.isSome_some,
    getItem, getSchedSub_absent ha]
  cases hiter : iterElems ins with
  | none => simp
  | some ds => simp [anyMemOf_list_nil ds]

theorem matchClause_start_gte_absent {doc : Record} {c : Value} {b : String}
    (hi : getItem c "$gte" = some (.str b)) (hb : b ≠ "")
    (ha : schedPathAbsent doc "start_time" = true) :
    matchClause doc "schedule_details.start_time" c = some false := by
  obtain ⟨o, rfl⟩ : ∃ o, c = Value.obj o := by
    cases c <;> first | exact ⟨_, rfl⟩ | cases hi
  simp only [getItem] at hi
  have hkey : ("schedule_details.start_time" : String) ≠ "schedule_details.days" := by decide
  simp only [matchClause, if_neg hkey, if_pos rfl, condHas, valueIn, hasKey, hi,
    Option.isSome_some, getItem, getSchedSub_absent ha, pyLt, strLt_empty_left hb]
  simp

theorem matchClause_end_lte_absent {doc : Record} {c : Value} {b : String}
    (hi : getItem c "$lte" = some (.str b))
    (ha : schedPathAbsent doc "end_time" = true) :
    matchClause doc "schedule_details.end_time" c = some true := by
  obtain ⟨o, rfl⟩ : ∃ o, c = Value.obj o := by
    cases c <;> first | exact ⟨_, rfl⟩ | cases hi
  simp only [getItem] at hi
  have hk1 : ("schedule_details.end_time" : String) ≠ "schedule_details.days" := by decide
  have hk2 : ("schedule_details.end_time" : String) ≠ "schedule_details.start_time" := by
    decide
  simp only [matchClause, if_neg hk1, if_neg hk2, if_pos rfl, condHas, valueIn, hasKey, hi,
    Option.isSome_some, getItem, getSchedSub_absent ha, pyGt, pyLt, strLt_empty_right]
  simp

theorem matches_of_clause_not_true {doc : Record} {q : Query} {key : String} {c : Value}
    (hmem : (key, c) ∈ q) (hcl : matchClause doc key c ≠ some true) :
    _matches_query doc q ≠ some true := by
  induction q with
  | nil => cases hmem
  | cons e rest ih =>
    obtain ⟨k0, c0⟩ := e
    simp only [_matches_query]
    rcases List.mem_cons.mp hmem with he | hr
    · cases he
      cases hm : matchClause doc key c with
      | none => simp
      | some b =>
        cases b with
        | false => simp
        | true => exact absurd hm hcl
    · cases hm : matchClause doc k0 c0 with
      | none => simp
      | some b =>
        cases b with
        | false => simp
        | true => exact ih hr

/-- Running `find` on a nonempty query is the filtering loop. -/
theorem find_cons (s : Store) (e : String × Value) (q : List (String × Value)) :
    find s (some (e :: q)) = findFilter (e :: q) s := rfl

/-- Claim C1 (amended).  For a query containing a recognized `$in` clause
on `schedule_details.days`, a record in which the queried path is absent
is never returned; the same holds for a `$gte` clause on
`schedule_details.start_time` whose bound is a nonempty string (the
absent time is compared as `""`); but a `$lte` clause on
`schedule_details.end_time` treats an absent path as matching: the
absent time `""` is never greater than the bound, so the clause always
passes.  No clause raises on an absent path (the match outcome is a
proper result, not an error). -/
theorem claim1_find_absence_per_operator :
    (∀ (s : Store) (q : Query) (res : List Record) (c ins : Value) (doc : Record),
      find s (some q) = some res → ("schedule_details.days", c) ∈ q →
      getItem c "$in" = some ins → schedPathAbsent doc "days" = true →
      doc ∉ res) ∧
    (∀ (s : Store) (q : Query) (res : List Record) (c : Value) (b : String) (doc : Record),
      find s (some q) = some res → ("schedule_details.start_time", c) ∈ q →
      getItem c "$gte" = some (.str b) → b ≠ "" →
      schedPathAbsent doc "start_time" = true →
      doc ∉ res) ∧
    (∀ (doc : Record) (c : Value) (b : String),
      getItem c "$lte" = some (.str b) → schedPathAbsent doc "end_time" = true →
      _matches_query doc [("schedule_details.end_time", c)] = some true) := by
  refine ⟨?_, ?_, ?_⟩
  · intro s q res c ins doc hf hmem hi ha hd
    cases q with
    | nil => cases hmem
    | cons e rest =>
      rw [find_cons] at hf
      exact matches_of_clause_not_true hmem (matchClause_days_in_absent hi ha)
        (findFilter_mem_matches hf hd)
  · intro s q res c b doc hf hmem hi hb ha hd
    cases q with
    | nil => cases hmem
    | cons e rest =>
      rw [find_cons] at hf
      have hcl : matchClause doc "schedule_details.start_time" c ≠ some true := by
        rw [matchClause_start_gte_absent hi hb ha]; simp
      exact matches_of_clause_not_true hmem hcl (findFilter_mem_matches hf hd)
  · intro doc c b hi ha
    simp only [_matches_query, matchClause_end_lte_absent hi ha]

/-- Claim C1 (counterexample to the claim as stated).  `absentStore` holds
one record with no fields, so the path `schedule_details.end_time` is
absent from it; `lteQuery` consists of the recognized operator clause
`{"schedule_details.end_time": {"$lte": "17:00"}}`; yet `find` returns
that record (tagged with its `_id`) rather than filtering it out. -/
theorem claim1_counterexample :
    getItem (Value.obj [("$lte", Value.str "17:00")]) "$lte" = some (Value.str "17:00") ∧
    schedPathAbsent (withId (Value.str "A") []) "end_time" = true ∧
    find absentStore (some lteQuery) = some [withId (Value.str "A") []] :=
  ⟨rfl, rfl, rfl⟩

/-- Witness for the amended C1 at concrete inputs: the one record of
`absentStore` is filtered out of a `$in` query's (empty) result list,
and an absent end time satisfies a `$lte` clause. -/
theorem claim1_find_absence_per_operator_witness :
    (withId (Value.str "A") []) ∉ ([] : List Record) ∧
    _matches_query (withId (Value.str "A") [])
      [("schedule_details.end_time", Value.obj [("$lte", Value.str "17:00")])] =
      some true := by
  constructor
  · exact claim1_find_absence_per_operator.1 absentStore
      [("schedule_details.days", Value.obj [("$in", Value.list [Value.str "Monday"])])]
      [] (Value.obj [("$in", Value.list [Value.str "Monday"])])
      (Value.list [Value.str "Monday"]) (withId (Value.str "A") [])
      rfl (List.mem_cons_self _ _) rfl rfl
  · exact claim1_find_absence_per_operator.2.2 (withId (Value.str "A") [])
      (Value.obj [("$lte", Value.str "17:00")]) "17:00" rfl rfl

/-- Claim C3.  `count_documents` returns the total number of records in
the store — the length of the full enumeration `find` produces — and its
result does not depend on the query argument in any way. -/
theorem claim3_count_ignores_query :
    ∀ (s : Store) (q q' : Query),
      count_documents s q = s.length ∧
      count_documents s q = count_documents s q' ∧
      find s none = some (s.map (fun e => withId (.str e.1) e.2)) :=
  fun _ _ _ => ⟨rfl, rfl, rfl⟩

/-- Claim C5.  `find` with an absent query, and `find` with an empty
query, both return exactly one result per stored record, in the store's
insertion order, each result being the stored field mapping with the
identity key merged in under the synthetic field `_id`. -/
theorem claim5_find_empty_returns_all :
    ∀ s : Store,
      find s none = some (s.map (fun e => withId (.str e.1) e.2)) ∧
      find s (some []) = some (s.map (fun e => withId (.str e.1) e.2)) :=
  fun _ => ⟨rfl, rfl⟩

/-- Claim C8.  `find_one` supports only identity lookups: a query without
`_id` yields the "not found" signal unconditionally (even when records
would match it), and a query with `_id` yields the stored record (tagged
with `_id`) when the key is present and "not found" when it is absent. -/
theorem claim8_find_one_id_only :
    ∀ (s : Store) (q : Query),
      (hasKey q "_id" = false → find_one s q = none) ∧
      (∀ (k : String) (r : Record), assocGet q "_id" = some (.str k) →
        assocGet s k = some r → find_one s q = some (withId (.str k) r)) ∧
      (∀ k : String, assocGet q "_id" = some (.str k) → assocGet s k = none →
        find_one s q = none) := by
  intro s q
  refine ⟨?_, ?_, ?_⟩
  · intro h
    unfold find_one
    rw [hasKey_false_get h]
  · intro k r h1 h2
    unfold find_one
    rw [h1]
    simp only [storeGetV, h2]
  · intro k h1 h2
    unfold find_one
    rw [h1]
    simp only [storeGetV, h2]

/-- Witness for C8: a non-`_id` query returns "not found" although the
record of `chessStore` matches it; an `_id` query returns the record
when the key exists and "not found" when it does not. -/
theorem claim8_find_one_id_only_witness :
    find_one chessStore [("max_participants", Value.int 2)] = none ∧
    find_one chessStore [("_id", Value.str "Chess Club")] =
      some (withId (Value.str "Chess Club")
        [("participants", Value.list [Value.str "a@x.edu"]),
         ("max_participants", Value.int 2)]) ∧
    find_one chessStore [("_id", Value.str "Art Club")] = none := by
  refine ⟨?_, ?_, ?_⟩
  · exact (claim8_find_one_id_only chessStore _).1 rfl
  · exact (claim8_find_one_id_only chessStore _).2.1 "Chess Club" _ rfl rfl
  · exact (claim8_find_one_id_only chessStore _).2.2 "Art Club" rfl rfl

/-- Claim C10.  `update_one` with a query lacking `_id` raises nothing and
touches nothing: it returns the store unchanged with a modified count of
zero, whatever the update argument is. -/
theorem claim10_update_without_id_noop :
    ∀ (s : Store) (q : Query) (u : Record), hasKey q "_id" = false →
      update_one s q u = some (s, 0) := by
  intro s q u h
  unfold update_one
  rw [h]
  simp

/-- Witness for C10 at a concrete store, query and update. -/
theorem claim10_update_without_id_noop_witness :
    update_one chessStore [("activity", Value.str "Chess Club")]
      [("$push", Value.obj [("participants", Value.str "b@x.edu")])] =
      some (chessStore, 0) :=
  claim10_update_without_id_noop chessStore _ _ rfl

/-- Applying `update_one` to a query that is exactly `{"_id": k}` reduces to the
store lookup followed by the push/pull pipeline. -/
theorem update_one_id_eq (s : Store) (k : String) (u : Record) :
    update_one s [("_id", .str k)] u =
      match assocGet s k with
      | none => some (s, 0)
      | some r =>
        match pushPart u r with
        | none => none
        | some r1 =>
          match pullPart u r1 with
          | none => none
          | some r2 => some (assocSet s k r2, 1) := by
  unfold update_one
  rfl

/-- Claim C2.  A `$pull` whose identity key matches but whose target field
is absent, or whose value does not occur in the target sequence, leaves
the store completely unchanged and still reports a modified count of 1
(the Python membership test `value in seq` is identity-or-equality per
element). -/
theorem claim2_pull_absent_noop :
    ∀ (s : Store) (k f : String) (r : Record) (v : Value),
      assocGet s k = some r →
      (assocGet r f = none ∨
        ∃ l, assocGet r f = some (.list l) ∧
          l.any (fun e => valueBeq v e || pyEq v e) = false) →
      update_one s [("_id", .str k)] [("$pull", .obj [(f, v)])] = some (s, 1) := by
  intro s k f r v hs hmiss
  rw [update_one_id_eq]
  simp only [hs]
  have hpush : pushPart [("$pull", .obj [(f, v)])] r = some r := rfl
  simp only [hpush]
  have hpull : pullPart [("$pull", .obj [(f, v)])] r = some r := by
    show applyPull r [(f, v)] = some r
    unfold applyPull
    rcases hmiss with hnone | ⟨l, hl, hany⟩
    · simp only [hasKey, hnone, Option.isSome_none, Bool.false_eq_true, if_false]
      rfl
    · simp only [hasKey, hl, Option.isSome_some, if_true, valueIn, hany]
      rfl
  simp only [hpull]
  rw [assocSet_eq_self s k r hs]

/-- Witness for C2: pulling a value that is not in the `participants`
sequence, and pulling from an absent field, both report modified count 1
and leave `chessStore` as it was. -/
theorem claim2_pull_absent_noop_witness :
    update_one chessStore [("_id", Value.str "Chess Club")]
      [("$pull", Value.obj [("participants", Value.str "z@x.edu")])] =
      some (chessStore, 1) ∧
    update_one chessStore [("_id", Value.str "Chess Club")]
      [("$pull", Value.obj [("helpers", Value.str "a@x.edu")])] =
      some (chessStore, 1) := by
  constructor
  · exact claim2_pull_absent_noop chessStore "Chess Club" "participants" _
      (Value.str "z@x.edu") rfl (Or.inr ⟨[Value.str "a@x.edu"], rfl, rfl⟩)
  · exact claim2_pull_absent_noop chessStore "Chess Club" "helpers" _
      (Value.str "a@x.edu") rfl (Or.inl rfl)

/-- Claim C7.  `$push` onto a field absent from the matched record creates
it as the one-element sequence `[v]`; a subsequent `$pull` of that same
value empties it to `[]`; both updates report one record modified. -/
theorem claim7_push_creates_then_pull_empties :
    ∀ (s : Store) (k f : String) (r : Record) (v : Value),
      assocGet s k = some r → hasKey r f = false →
      ∃ (s1 : Store) (r1 : Record),
        update_one s [("_id", .str k)] [("$push", .obj [(f, v)])] = some (s1, 1) ∧
        assocGet s1 k = some r1 ∧ assocGet r1 f = some (.list [v]) ∧
        ∃ (s2 : Store) (r2 : Record),
          update_one s1 [("_id", .str k)] [("$pull", .obj [(f, v)])] = some (s2, 1) ∧
          assocGet s2 k = some r2 ∧ assocGet r2 f = some (.list []) := by
  intro s k f r v hs habs
  have hvv : (valueBeq v v || pyEq v v) = true := by
    rw [valueBeq_refl v, Bool.true_or]
  refine ⟨assocSet s k (assocSet (assocSet r f (.list [])) f (.list [v])),
    assocSet (assocSet r f (.list [])) f (.list [v]), ?_, ?_, ?_, ?_⟩
  · rw [update_one_id_eq]
    simp only [hs]
    have hpush : pushPart [("$push", .obj [(f, v)])] r =
        some (assocSet (assocSet r f (.list [])) f (.list [v])) := by
      show applyPush r [(f, v)] = _
      unfold applyPush ensureField
      simp only [habs, Bool.false_eq_true, if_false, assocGet_assocSet_self]
      rfl
    simp only [hpush]
    have hpull : pullPart [("$push", .obj [(f, v)])]
        (assocSet (assocSet r f (.list [])) f (.list [v])) =
        some (assocSet (assocSet r f (.list [])) f (.list [v])) := rfl
    rw [hpull]
  · exact assocGet_assocSet_self s k _
  · exact assocGet_assocSet_self _ f _
  · refine ⟨assocSet (assocSet s k (assocSet (assocSet r f (.list [])) f (.list [v]))) k
        (assocSet (assocSet (assocSet r f (.list [])) f (.list [v])) f (.list [])),
      assocSet (assocSet (assocSet r f (.list [])) f (.list [v])) f (.list []), ?_, ?_, ?_⟩
    · rw [update_one_id_eq]
      simp only [assocGet_assocSet_self]
      have hpush2 : pushPart [("$pull", .obj [(f, v)])]
          (assocSet (assocSet r f (.list [])) f (.list [v])) =
          some (assocSet (assocSet r f (.list [])) f (.list [v])) := rfl
      simp only [hpush2]
      have hpull2 : pullPart [("$pull", .obj [(f, v)])]
          (assocSet (assocSet r f (.list [])) f (.list [v])) =
          some (assocSet (assocSet (assocSet r f (.list [])) f (.list [v])) f (.list [])) := by
        show applyPull (assocSet (assocSet r f (.list [])) f (.list [v])) [(f, v)] = _
        unfold applyPull
        simp only [hasKey, assocGet_assocSet_self, Option.isSome_some, if_true,
          valueIn, List.any_cons, List.any_nil, hvv, Bool.true_or, Bool.or_false,
          removeFirstPy, if_pos rfl]
        rfl
      simp only [hpull2]
    · exact assocGet_assocSet_self _ k _
    · exact assocGet_assocSet_self _ f _

/-- Witness for C7: pushing onto the absent `helpers` field of the
`chessStore` record and pulling the value back out. -/
theorem claim7_push_creates_then_pull_empties_witness :
    ∃ (s1 : Store) (r1 : Record),
      update_one chessStore [("_id", Value.str "Chess Club")]
        [("$push", Value.obj [("helpers", Value.str "h@x.edu")])] = some (s1, 1) ∧
      assocGet s1 "Chess Club" = some r1 ∧
      assocGet r1 "helpers" = some (Value.list [Value.str "h@x.edu"]) ∧
      ∃ (s2 : Store) (r2 : Record),
        update_one s1 [("_id", Value.str "Chess Club")]
          [("$pull", Value.obj [("helpers", Value.str "h@x.edu")])] = some (s2, 1) ∧
        assocGet s2 "Chess Club" = some r2 ∧
        assocGet r2 "helpers" = some (Value.list []) :=
  claim7_push_creates_then_pull_empties chessStore "Chess Club" "helpers" _
    (Value.str "h@x.edu") rfl rfl

theorem ensureField_get_ne {r : Record} {f g : String} (h : f ≠ g) :
    assocGet (ensureField r g) f = assocGet r f := by
  unfold ensureField
  split
  · rfl
  · exact assocGet_assocSet_ne r g f _ h

theorem applyPush_frame {fields : List (String × Value)} {r r' : Record} {f : String}
    (h : applyPush r fields = some r') (hf : ∀ e ∈ fields, e.1 ≠ f) :
    assocGet r' f = assocGet r f := by
  induction fields generalizing r with
  | nil =>
    simp only [applyPush, Option.some.injEq] at h
    subst h; rfl
  | cons e rest ih =>
    obtain ⟨g, w⟩ := e
    have hgf : f ≠ g := fun hh => hf (g, w) (List.mem_cons_self _ _) hh.symm
    simp only [applyPush] at h
    cases hga : assocGet (ensureField r g) g with
    | none => rw [hga] at h; cases h
    | some fv =>
      rw [hga] at h
      cases fv with
      | list l =>
        have step := ih h (fun e he => hf e (List.mem_cons_of_mem _ he))
        rw [step, assocGet_assocSet_ne _ g f _ hgf, ensureField_get_ne hgf]
      | null => cases h
      | bool b => cases h
      | int n => cases h
      | str s => cases h
      | obj o => cases h

theorem applyPull_frame {fields : List (String × Value)} {r r' : Record} {f : String}
    (h : applyPull r fields = some r') (hf : ∀ e ∈ fields, e.1 ≠ f) :
    assocGet r' f = assocGet r f := by
  induction fields generalizing r with
  | nil =>
    simp only [applyPull, Option.some.injEq] at h
    subst h; rfl
  | cons e rest ih =>
    obtain ⟨g, w⟩ := e
    have hgf : f ≠ g := fun hh => hf (g, w) (List.mem_cons_self _ _) hh.symm
    have hrest : ∀ e ∈ rest, (e : String × Value).1 ≠ f :=
      fun e he => hf e (List.mem_cons_of_mem _ he)
    simp only [applyPull] at h
    by_cases hk : hasKey r g = true
    · rw [if_pos hk] at h
      cases hga : assocGet r g with
      | none => simp only [hga] at h; cases h
      | some fv =>
        simp only [hga] at h
        cases hvi : valueIn w fv with
        | none => simp only [hvi] at h; cases h
        | some b =>
          simp only [hvi] at h
          cases b with
          | false => exact ih h hrest
          | true =>
            cases fv with
            | list l =>
              have step := ih h hrest
              rw [step, assocGet_assocSet_ne _ g f _ hgf]
            | null => cases h
            | bool b => cases h
            | int n => cases h
            | str s => cases h
            | obj o => cases h
    · rw [if_neg hk] at h
      exact ih h hrest

theorem pushPart_frame {u r r' : Record} {f : String}
    (h : pushPart u r = some r') (hf : ∀ e ∈ pushPairs u, e.1 ≠ f) :
    assocGet r' f = assocGet r f := by
  unfold pushPart at h
  by_cases hk : hasKey u "$push" = true
  · rw [if_pos hk] at h
    cases hg : assocGet u "$push" with
    | none => rw [hg] at h; cases h
    | some pv =>
      rw [hg] at h
      cases pv with
      | obj o =>
        refine applyPush_frame h ?_
        intro e he
        exact hf e (by unfold pushPairs; rw [hg]; exact he)
      | null => cases h
      | bool b => cases h
      | int n => cases h
      | str s => cases h
      | list l => cases h
  · rw [if_neg hk] at h
    simp only [Option.some.injEq] at h
    subst h; rfl

theorem pullPart_frame {u r r' : Record} {f : String}
    (h : pullPart u r = some r') (hf : ∀ e ∈ pullPairs u, e.1 ≠ f) :
    assocGet r' f = assocGet r f := by
  unfold pullPart at h
  by_cases hk : hasKey u "$pull" = true
  · rw [if_pos hk] at h
    cases hg : assocGet u "$pull" with
    | none => rw [hg] at h; cases h
    | some pv =>
      rw [hg] at h
      cases pv with
      | obj o =>
        refine applyPull_frame h ?_
        intro e he
        exact hf e (by unfold pullPairs; rw [hg]; exact he)
      | null => cases h
      | bool b => cases h
      | int n => cases h
      | str s => cases h
      | list l => cases h
  · rw [if_neg hk] at h
    simp only [Option.some.injEq] at h
    subst h; rfl

/-- Claim C9.  An identity-keyed `update_one` is frame-preserving: every
record stored under a different key is untouched, and within the matched
record every field not named by the update's `$push`/`$pull` dicts keeps
its value. -/
theorem claim9_update_one_frame :
    ∀ (s : Store) (q : Query) (u : Record) (s' : Store) (n : Nat) (k : String),
      update_one s q u = some (s', n) → assocGet q "_id" = some (.str k) →
      (∀ k' : String, k' ≠ k → assocGet s' k' = assocGet s k') ∧
      (∀ f : String, (∀ e ∈ pushPairs u, e.1 ≠ f) → (∀ e ∈ pullPairs u, e.1 ≠ f) →
        ((assocGet s' k).bind (fun r => assocGet r f)) =
          ((assocGet s k).bind (fun r => assocGet r f))) := by
  intro s q u s' n k hu hq
  unfold update_one at hu
  rw [hasKey_of_get hq] at hu
  simp only [if_true] at hu
  rw [hq] at hu
  simp only [storeGetV] at hu
  cases hsk : assocGet s k with
  | none =>
    simp only [hsk, Option.some.injEq, Prod.mk.injEq] at hu
    rw [← hu.1]
    exact ⟨fun _ _ => rfl, fun _ _ _ => by rw [hsk]⟩
  | some r =>
    simp only [hsk] at hu
    cases hpp : pushPart u r with
    | none => simp only [hpp] at hu; cases hu
    | some r1 =>
      simp only [hpp] at hu
      cases hpl : pullPart u r1 with
      | none => simp only [hpl] at hu; cases hu
      | some r2 =>
        simp only [hpl, Option.some.injEq, Prod.mk.injEq] at hu
        rw [← hu.1]
        constructor
        · intro k' hk'
          exact assocGet_assocSet_ne s k k' r2 hk'
        · intro f hfPush hfPull
          rw [assocGet_assocSet_self]
          show assocGet r2 f = assocGet r f
          rw [pullPart_frame hpl hfPull, pushPart_frame hpp hfPush]

/-- Witness for C9: pushing a participant into the `chessStore` record
leaves the (absent) record under another key and the record's
`max_participants` field untouched. -/
theorem claim9_update_one_frame_witness :
    assocGet [("Chess Club",
        [("participants", Value.list [Value.str "a@x.edu", Value.str "b@x.edu"]),
         ("max_participants", Value.int 2)])] "Art Club" =
      assocGet chessStore "Art Club" ∧
    ((assocGet [("Chess Club",
        [("participants", Value.list [Value.str "a@x.edu", Value.str "b@x.edu"]),
         ("max_participants", Value.int 2)])] "Chess Club").bind
      (fun r => assocGet r "max_participants")) =
    ((assocGet chessStore "Chess Club").bind (fun r => assocGet r "max_participants")) := by
  have h := claim9_update_one_frame chessStore [("_id", Value.str "Chess Club")]
    [("$push", Value.obj [("participants", Value.str "b@x.edu")])]
    [("Chess Club",
      [("participants", Value.list [Value.str "a@x.edu", Value.str "b@x.edu"]),
       ("max_participants", Value.int 2)])] 1 "Chess Club" rfl rfl
  refine ⟨h.1 "Art Club" (by decide), h.2 "max_participants" ?_ ?_⟩
  · intro e he
    have : e = ("participants", Value.str "b@x.edu") := List.mem_singleton.mp he
    rw [this]
    decide
  · intro e he
    cases he

/-- One emptiness-gated seeding pass is idempotent: a second pass over
the result of a first is a no-op, whatever the starting store. -/
theorem gate_idem (seeds : List (String × Record)) (s : Store) :
    (if count_documents
          (if count_documents s [] == 0 then seedFold seeds s else s) [] == 0
     then seedFold seeds (if count_documents s [] == 0 then seedFold seeds s else s)
     else (if count_documents s [] == 0 then seedFold seeds s else s)) =
    (if count_documents s [] == 0 then seedFold seeds s else s) := by
  by_cases h : s.length = 0
  · have hs : s = [] := List.length_eq_zero.mp h
    subst hs
    simp only [count_documents, List.length_nil, beq_self_eq_true, if_true]
    cases htl : seedFold seeds [] with
    | nil => simp [htl]
    | cons a t => simp [htl, count_documents]
  · have hne : (count_documents s [] == 0) = false := by
      simp [count_documents, h]
    simp only [hne, Bool.false_eq_true, if_false]

theorem init_database_idem (hash : String → String) (st : DBState) :
    init_database hash (init_database hash st) = init_database hash st := by
  unfold init_database
  dsimp only
  rw [gate_idem initial_activities st.activities, gate_idem _ st.teachers]

/-- Claim C4.  Running `init_database` twice in succession from any state
never duplicates records: after the second call each collection holds
exactly as many records as after the first, because seeding is gated on
`count_documents` being zero. -/
theorem claim4_init_database_idempotent :
    ∀ (hash : String → String) (st : DBState),
      count_documents (init_database hash (init_database hash st)).activities [] =
        count_documents (init_database hash st).activities [] ∧
      count_documents (init_database hash (init_database hash st)).teachers [] =
        count_documents (init_database hash st).teachers [] := by
  intro hash st
  rw [init_database_idem]
  exact ⟨rfl, rfl⟩


theorem allStr_eq_map_filterMap :
    ∀ l : List Value,
      l.all (fun v => match v with | .str _ => true | _ => false) = true →
      l = (l.filterMap (fun v => match v with | .str d => some d | _ => none)).map Value.str
  | [], _ => rfl
  | v :: rest, h => by
    simp only [List.all_cons, Bool.and_eq_true] at h
    cases v with
    | str d => exact congrArg (List.cons (Value.str d)) (allStr_eq_map_filterMap rest h.2)
    | null => cases h.1
    | bool b => cases h.1
    | int n => cases h.1
    | list l => cases h.1
    | obj o => cases h.1

theorem recDaysWF_dayValues {r : Record} (h : recDaysWF r = true) :
    dayValuesOf r = some ((recDayStrings r).map Value.str) := by
  cases hg : assocGet r "schedule_details" with
  | none => simp [dayValuesOf, recDayStrings, hg]
  | some v =>
    cases v with
    | obj sd =>
      cases hd : assocGet sd "days" with
      | none => simp [dayValuesOf, recDayStrings, hg, hd]
      | some d =>
        cases d with
        | list l =>
          simp only [recDaysWF, hg, hd] at h
          simp only [dayValuesOf, recDayStrings, hg, hd, iterElems, Option.some.injEq]
          exact allStr_eq_map_filterMap l h
        | null => simp [recDaysWF, hg, hd] at h
        | bool b => simp [recDaysWF, hg, hd] at h
        | int n => simp [recDaysWF, hg, hd] at h
        | str ss => simp [recDaysWF, hg, hd] at h
        | obj oo => simp [recDaysWF, hg, hd] at h
    | null => simp [recDaysWF, hg] at h
    | bool b => simp [recDaysWF, hg] at h
    | int n => simp [recDaysWF, hg] at h
    | str ss => simp [recDaysWF, hg] at h
    | list l => simp [recDaysWF, hg] at h

theorem allDayStrings_cons (e : String × Record) (rest : Store) :
    allDayStrings (e :: rest) = recDayStrings e.2 ++ allDayStrings rest := rfl

theorem collectAllDays_wf {s : Store} (h : daysWF s = true) :
    collectAllDays s = some ((allDayStrings s).map Value.str) := by
  induction s with
  | nil => rfl
  | cons e rest ih =>
    unfold daysWF at h
    simp only [List.all_cons, Bool.and_eq_true] at h
    have hrec := recDaysWF_dayValues h.1
    have hih : collectAllDays rest = some ((allDayStrings rest).map Value.str) :=
      ih h.2
    simp only [collectAllDays, hrec, hih, allDayStrings_cons, List.map_append]

theorem valuesAsStrings_map :
    ∀ l : List String, valuesAsStrings (l.map Value.str) = some l
  | [] => rfl
  | d :: rest => by
    simp only [List.map_cons, valuesAsStrings, valuesAsStrings_map rest]
    rfl

theorem mem_allDayStrings {d : String} :
    ∀ s : Store,
      (d ∈ allDayStrings s ↔
        ∃ (k : String) (r : Record) (sd : List (String × Value)) (l : List Value),
          (k, r) ∈ s ∧ assocGet r "schedule_details" = some (.obj sd) ∧
          assocGet sd "days" = some (.list l) ∧ Value.str d ∈ l)
  | [] => by
    simp only [allDayStrings, List.foldr_nil, List.not_mem_nil, false_iff]
    rintro ⟨k, r, sd, l, hmem, _⟩
    cases hmem
  | e :: rest => by
    obtain ⟨k0, r0⟩ := e
    rw [allDayStrings_cons, List.mem_append]
    constructor
    · rintro (hhead | htail)
      · cases hg : assocGet r0 "schedule_details" with
        | none => simp [recDayStrings, hg] at hhead
        | some v =>
          cases v with
          | obj sd =>
            cases hd : assocGet sd "days" with
            | none => simp [recDayStrings, hg, hd] at hhead
            | some dv =>
              cases dv with
              | list l =>
                simp only [recDayStrings, hg, hd] at hhead
                rcases List.mem_filterMap.mp hhead with ⟨v, hvl, hv⟩
                have hveq : v = Value.str d := by
                  cases v <;> simp_all
                refine ⟨k0, r0, sd, l, List.mem_cons_self _ _, hg, hd, ?_⟩
                rw [← hveq]
                exact hvl
              | null => simp [recDayStrings, hg, hd] at hhead
              | bool b => simp [recDayStrings, hg, hd] at hhead
              | int n => simp [recDayStrings, hg, hd] at hhead
              | str ss => simp [recDayStrings, hg, hd] at hhead
              | obj oo => simp [recDayStrings, hg, hd] at hhead
          | null => simp [recDayStrings, hg] at hhead
          | bool b => simp [recDayStrings, hg] at hhead
          | int n => simp [recDayStrings, hg] at hhead
          | str ss => simp [recDayStrings, hg] at hhead
          | list l => simp [recDayStrings, hg] at hhead
      · rcases (mem_allDayStrings rest).mp htail with ⟨k, r, sd, l, hmem, hg, hd, hdl⟩
        exact ⟨k, r, sd, l, List.mem_cons_of_mem _ hmem, hg, hd, hdl⟩
    · rintro ⟨k, r, sd, l, hmem, hg, hd, hdl⟩
      rcases List.mem_cons.mp hmem with hh | ht
      · left
        cases hh
        simp only [recDayStrings, hg, hd]
        exact List.mem_filterMap.mpr ⟨Value.str d, hdl, rfl⟩
      · right
        exact (mem_allDayStrings rest).mpr ⟨k, r, sd, l, ht, hg, hd, hdl⟩

theorem sortedDays_sorted (l : List String) :
    List.Sorted (· ≤ ·) (sortedDays l) :=
  Finset.sort_sorted _ _

theorem sortedDays_nodup (l : List String) : (sortedDays l).Nodup :=
  Finset.sort_nodup _ _

theorem mem_sortedDays {d : String} {l : List String} :
    d ∈ sortedDays l ↔ d ∈ l := by
  unfold sortedDays
  rw [Finset.mem_sort, List.mem_toFinset]

theorem aggregate_recognized {s : Store} {stage : Record} (rest : List Record)
    (hwf : daysWF s = true)
    (hrec : pyEq ((assocGet stage "$unwind").getD .null)
      (.str "$schedule_details.days") = true) :
    aggregate s (stage :: rest) =
      some ((sortedDays (allDayStrings s)).map
        (fun day => [("_id", Value.str day)])) := by
  simp only [aggregate]
  rw [if_pos hrec]
  simp only [collectAllDays_wf hwf, valuesAsStrings_map]

/-- Claim C6.  Over a store shaped per the data model, a pipeline whose
first stage is `{"$unwind": "$schedule_details.days"}` yields the
ascending-sorted, duplicate-free list of exactly the day values
occurring in any record's `schedule_details.days` sequence, each wrapped
as `{"_id": day}`; every other pipeline (the empty one, or one whose
first stage does not carry that exact `$unwind` value) yields the empty
sequence. -/
theorem claim6_aggregate_unwind_days :
    ∀ s : Store, daysWF s = true →
      (∀ (stage : Record) (rest : List Record),
        pyEq ((assocGet stage "$unwind").getD .null)
          (.str "$schedule_details.days") = true →
        ∃ ds : List String,
          aggregate s (stage :: rest) =
            some (ds.map (fun day => [("_id", Value.str day)])) ∧
          List.Sorted (· ≤ ·) ds ∧ ds.Nodup ∧
          (∀ d : String, d ∈ ds ↔
            ∃ (k : String) (r : Record) (sd : List (String × Value)) (l : List Value),
              (k, r) ∈ s ∧ assocGet r "schedule_details" = some (.obj sd) ∧
              assocGet sd "days" = some (.list l) ∧ Value.str d ∈ l)) ∧
      aggregate s [] = some [] ∧
      (∀ (stage : Record) (rest : List Record),
        pyEq ((assocGet stage "$unwind").getD .null)
          (.str "$schedule_details.days") = false →
        aggregate s (stage :: rest) = some []) := by
  intro s hwf
  refine ⟨?_, rfl, ?_⟩
  · intro stage rest hrec
    refine ⟨sortedDays (allDayStrings s), aggregate_recognized rest hwf hrec,
      sortedDays_sorted _, sortedDays_nodup _, ?_⟩
    intro d
    rw [mem_sortedDays]
    exact mem_allDayStrings s
  · intro stage rest hrec
    simp only [aggregate, hrec, Bool.false_eq_true, if_false]

/-- Witness for C6 at the spec's scenario store (day sequences
`["Monday", "Friday"]` and `["Friday"]`) and the recognized pipeline. -/
theorem claim6_aggregate_unwind_days_witness :
    ∃ ds : List String,
      aggregate scenarioStore unwindPipeline =
        some (ds.map (fun day => [("_id", Value.str day)])) ∧
      List.Sorted (· ≤ ·) ds ∧ ds.Nodup ∧
      (∀ d : String, d ∈ ds ↔
        ∃ (k : String) (r : Record) (sd : List (String × Value)) (l : List Value),
          (k, r) ∈ scenarioStore ∧ assocGet r "schedule_details" = some (.obj sd) ∧
          assocGet sd "days" = some (.list l) ∧ Value.str d ∈ l) :=
  (claim6_aggregate_unwind_days scenarioStore rfl).1
    [("$unwind", Value.str "$schedule_details.days")] [] rfl

end MemDB
